import Mathlib

/-!
Verification of the estimate-work room-synchronization server (`server.go`).

Shallow embedding conventions:
* Go `time.Time` values are nanosecond counts (`Nat`) since the epoch;
  `time.Time.Truncate(time.Second)` is `truncSecond`, `After` is `>`,
  `Before` is `<`.
* Go `map[string]string` is an association list with the usual
  lookup/insert/delete operations (`mapLookup`, `mapInsert`, `mapErase`).
* Form values follow `http.Request.FormValue`: the empty string means the
  field is absent from the request.
* A buffered `chan bool` is a numeric handle together with a count of
  pending signals (`BusState.pending`); a send increments the count.
* A nil-pointer dereference (Go panic) is `Option.none`.
-/

/-- Nanoseconds per second, the resolution of Go `time.Time`. -/
def nsPerSecond : Nat := 1000000000

/-- `t.Truncate(time.Second)`: round `t` down to a whole second. -/
def truncSecond (t : Nat) : Nat := t - t % nsPerSecond

/-- `persistTime = 10 * 24 * time.Hour` (server.go line 30), in nanoseconds. -/
def persistTime : Nat := 10 * 24 * 60 * 60 * nsPerSecond

/-- The `User` struct (server.go lines 39-42). -/
structure User where
  Id : String
  Name : String
deriving DecidableEq

/-- The `Room` struct (server.go lines 44-60).  The mutex `mu` is not
modelled (handlers are serialized per room by it); `subs` holds the
handles of the subscribed update channels. -/
structure Room where
  MachineId : String
  Id : String
  Name : String
  HostId : String
  Users : List User
  Topic : String
  Options : List String
  Estimates : List (String × String)
  Revealed : Bool
  UpdatedAt : Nat
  subs : List Nat
deriving DecidableEq

/-- Lookup in a Go `map[string]string` modelled as an association list. -/
def mapLookup : List (String × String) → String → Option String
  | [], _ => none
  | p :: rest, k => if p.1 = k then some p.2 else mapLookup rest k

/-- `m[k] = v` on a Go `map[string]string`: replace the binding if the key
is present, otherwise add it. -/
def mapInsert : List (String × String) → String → String → List (String × String)
  | [], k, v => [(k, v)]
  | p :: rest, k, v => if p.1 = k then (k, v) :: rest else p :: mapInsert rest k v

/-- `delete(m, k)` on a Go `map[string]string`. -/
def mapErase : List (String × String) → String → List (String × String)
  | [], _ => []
  | p :: rest, k => if p.1 = k then mapErase rest k else p :: mapErase rest k

/-- The loop body of `Room.GetUser` (server.go lines 62-70): first user
with the given id, nil if absent. -/
def getUserIn : List User → String → Option User
  | [], _ => none
  | u :: rest, id => if u.Id = id then some u else getUserIn rest id

/-- `Room.GetUser` (server.go lines 62-70). -/
def Room.GetUser (r : Room) (id : String) : Option User :=
  getUserIn r.Users id

/-- The `user.Name = newUserName` pointer mutation (server.go line 260):
update the name of the first user whose id matches. -/
def setUserName : List User → String → String → List User
  | [], _, _ => []
  | u :: rest, uid, n =>
    if u.Id = uid then { u with Name := n } :: rest
    else u :: setUserName rest uid n

/-- Reading the `user` cookie and resolving it against a room
(server.go lines 123-131): no cookie means no user. -/
def cookieUser (room : Room) (userCookie : Option String) : Option User :=
  match userCookie with
  | none => none
  | some c => Room.GetUser room c

/-- Lookup in the global `rooms` map, modelled as an association list
keyed by room id. -/
def lookupRoom : List (String × Room) → String → Option Room
  | [], _ => none
  | kr :: rest, id => if kr.1 = id then some kr.2 else lookupRoom rest id

/-- The default option list assigned by `NewRoom` (server.go line 86). -/
def defaultOptions : List String :=
  ["🤷", "0", "1", "2", "3", "5", "8", "13", "21", "🤯"]

/-- `NewRoom` (server.go lines 80-92), parameterized by the generated
UUID, the current machine id and the current time. -/
def NewRoom (machineId id : String) (now : Nat) : Room :=
  { MachineId := machineId
    Id := id
    Name := ""
    HostId := ""
    Users := []
    Topic := ""
    Options := defaultOptions
    Estimates := []
    Revealed := false
    UpdatedAt := now
    subs := [] }

/-- An HTTP request as the handlers observe it: path values, cookies, the
parsed `If-Modified-Since` header (none if absent or unparsable), and the
form fields read via `FormValue` (empty string = absent). -/
structure Request where
  pathMachine : String
  pathRoom : String
  roomCookie : Option String
  userCookie : Option String
  ifModifiedSince : Option Nat
  userName : String
  name : String
  topic : String
  estimate : String
  showEstimates : String
  deleteEstimates : String
  options : String
  kick : String
  hxRequest : Bool
deriving DecidableEq

/-- `getReqRoomUser` (server.go lines 107-132). -/
def getReqRoomUser (rooms : List (String × Room)) (req : Request) :
    Option Room × Option User :=
  let roomId :=
    if req.pathRoom = "" then
      match req.roomCookie with
      | some v => v
      | none => ""
    else req.pathRoom
  match lookupRoom rooms roomId with
  | none => (none, none)
  | some room => (some room, cookieUser room req.userCookie)

/-- Which of the three events ends a long-poll wait (server.go
lines 190-195): a publish on the room channel, the 20-second timer, or
client disconnect. -/
inductive WaitEvent where
  | published
  | timeout20s
  | disconnected
deriving DecidableEq

/-- Outcome of the long-poll portion of `getRoomUpdateHandler`:
either the current state is returned immediately (carrying the
`Last-Modified` value) without subscribing, or the request subscribed and
waited until the given event. -/
inductive LPOutcome where
  | immediate (lastModified : Nat)
  | waitedThen (ev : WaitEvent)
deriving DecidableEq

/-- The long-poll decision of `getRoomUpdateHandler` (server.go
lines 180-203): wait exactly when the `If-Modified-Since` header parsed
and the room's `UpdatedAt`, truncated to a second, is not after it. -/
def longPoll (updatedAt : Nat) (ims : Option Nat) (ev : WaitEvent) : LPOutcome :=
  match ims with
  | none => .immediate updatedAt
  | some t => if t < truncSecond updatedAt then .immediate updatedAt else .waitedThen ev

/-- The `newUserName` block of `updateRoomHandler` (server.go
lines 256-287).  `freshId` is the UUID generated when no user cookie is
present. -/
def applyUserNameForm (room : Room) (req : Request) (freshId : String) : Room :=
  if req.userName = "" then room
  else
    match cookieUser room req.userCookie with
    | some u => { room with Users := setUserName room.Users u.Id req.userName }
    | none =>
      let userId :=
        match req.userCookie with
        | some c => c
        | none => freshId
      let u : User := { Id := userId, Name := req.userName }
      let r1 := { room with Users := room.Users ++ [u] }
      if r1.HostId = "" then { r1 with HostId := u.Id } else r1

/-- The `newRoomName` block (server.go lines 289-292). -/
def applyNameForm (room : Room) (req : Request) : Room :=
  if req.name = "" then room else { room with Name := req.name }

/-- The `newRoomTopic` block (server.go lines 294-297). -/
def applyTopicForm (room : Room) (req : Request) : Room :=
  if req.topic = "" then room else { room with Topic := req.topic }

/-- The `newEstimate` block (server.go lines 299-309).  The handler calls
`getReqRoomUser` again; the route always carries the room path segment, so
it resolves the same (already mutated) room, and the user from the request
cookie.  The result of `user.Id` on a nil user is a panic, i.e. `none`. -/
def applyEstimateForm (room : Room) (req : Request) : Option Room :=
  if req.estimate = "" then some room
  else
    match cookieUser room req.userCookie with
    | none => none
    | some u =>
      match mapLookup room.Estimates u.Id with
      | some existing =>
        if existing = req.estimate then
          some { room with Estimates := mapErase room.Estimates u.Id }
        else
          some { room with Estimates := mapInsert room.Estimates u.Id req.estimate }
      | none => some { room with Estimates := mapInsert room.Estimates u.Id req.estimate }

/-- The `showEstimates` block (server.go lines 311-314). -/
def applyShowForm (room : Room) (req : Request) : Room :=
  if req.showEstimates = "true" then { room with Revealed := true } else room

/-- The `deleteEstimates` block (server.go lines 316-320). -/
def applyDeleteForm (room : Room) (req : Request) : Room :=
  if req.deleteEstimates = "true" then
    { room with Revealed := false, Estimates := [] }
  else room

/-- The `newOptions` block (server.go lines 322-328). -/
def applyOptionsForm (room : Room) (req : Request) : Room :=
  if req.options = "" then room
  else { room with Options := (req.options.splitOn ",").map (fun s => s.trim) }

/-- The `kickUsers` block (server.go lines 330-334). -/
def applyKickForm (room : Room) (req : Request) : Room :=
  if req.kick = "true" then { room with Users := [], Estimates := [] } else room

/-- The three form blocks that precede the estimate block, in source order. -/
def applyPreForms (room : Room) (req : Request) (freshId : String) : Room :=
  applyTopicForm (applyNameForm (applyUserNameForm room req freshId) req) req

/-- The four form blocks that follow the estimate block, in source order. -/
def applyPostForms (room : Room) (req : Request) : Room :=
  applyKickForm (applyOptionsForm (applyDeleteForm (applyShowForm room req) req) req) req

/-- The full state mutation of `updateRoomHandler` (server.go
lines 254-336), ending with `room.UpdatedAt = time.Now()`.  `none` is the
nil-user panic inside the estimate block. -/
def applyRoomUpdate (room : Room) (req : Request) (freshId : String) (now : Nat) :
    Option Room :=
  match applyEstimateForm (applyPreForms room req freshId) req with
  | none => none
  | some r4 => some { applyPostForms r4 req with UpdatedAt := now }

/-- How a handler concludes, at the granularity the routing and safety
claims need.  `flyReplay owner` is the `fly-replay` header naming the
owning instance together with the local not-found body (server.go
lines 137-143 and 239-245). -/
inductive RouteResult where
  | flyReplay (owner : String)
  | notFoundPage
  | roomPage
  | updatePage
  | notModified
  | homeRedirect
  | nilDeref
  | mutatedRedirect
deriving DecidableEq

/-- `getRoomHandler` (server.go lines 134-163), reduced to its routing
outcome. -/
def getRoomHandler (machineId : String) (rooms : List (String × Room))
    (req : Request) : RouteResult :=
  if req.pathMachine ≠ machineId then .flyReplay req.pathMachine
  else
    match getReqRoomUser rooms req with
    | (none, _) => .notFoundPage
    | (some _, _) => .roomPage

/-- `updateRoomHandler` (server.go lines 236-350), reduced to its
outcome.  `nilDeref` is the panic of the estimate block. -/
def updateRoomHandler (machineId : String) (rooms : List (String × Room))
    (req : Request) (freshId : String) (now : Nat) : RouteResult :=
  if req.pathMachine ≠ machineId then .flyReplay req.pathMachine
  else
    match getReqRoomUser rooms req with
    | (none, _) => .notFoundPage
    | (some room, _) =>
      match applyRoomUpdate room req freshId now with
      | none => .nilDeref
      | some _ => .mutatedRedirect

/-- `getRoomUpdateHandler` (server.go lines 165-227), reduced to its
outcome.  Note: unlike the other two room handlers, it reads no machine
path value and performs no instance check. -/
def getRoomUpdateHandler (rooms : List (String × Room)) (req : Request)
    (ev : WaitEvent) : RouteResult :=
  match getReqRoomUser rooms req with
  | (none, _) => .homeRedirect
  | (some _, none) => .homeRedirect
  | (some room, some _) =>
    match longPoll room.UpdatedAt req.ifModifiedSince ev with
    | .immediate _ => .updatePage
    | .waitedThen .timeout20s => .notModified
    | .waitedThen _ => .updatePage

/-- The per-room notification bus: `subs` is the `Room.subs` slice of
channel handles, `nextHandle` generates fresh channels, and `pending h`
counts signals delivered to channel `h` and not yet received. -/
structure BusState where
  nextHandle : Nat
  subs : List Nat
  pending : Nat → Nat

/-- `make(chan bool, 1)` plus `room.subs = append(room.subs, roomUpdates)`
(server.go lines 184-188). -/
def subscribe (s : BusState) : BusState × Nat :=
  ({ s with nextHandle := s.nextHandle + 1, subs := s.subs ++ [s.nextHandle] },
   s.nextHandle)

/-- `room.subs = slices.DeleteFunc(room.subs, ...)` (server.go
lines 197-202): remove every occurrence of the handle. -/
def unsubscribe (s : BusState) (h : Nat) : BusState :=
  { s with subs := s.subs.filter (fun x => decide (x ≠ h)) }

/-- `sub <- true`: one signal delivered to channel `h`. -/
def chanSend (pending : Nat → Nat) (h : Nat) : Nat → Nat :=
  fun k => if k = h then pending h + 1 else pending k

/-- `for _, sub := range room.subs { sub <- true }` (server.go
lines 338-340). -/
def publish (s : BusState) : BusState :=
  { s with pending := s.subs.foldl chanSend s.pending }

/-- The fields of `Room` that `encoding/gob` serializes: every exported
field; the unexported `mu` and `subs` are skipped (server.go
lines 389-405). -/
structure PersistedRoom where
  MachineId : String
  Id : String
  Name : String
  HostId : String
  Users : List User
  Topic : String
  Options : List String
  Estimates : List (String × String)
  Revealed : Bool
  UpdatedAt : Nat
deriving DecidableEq

/-- Gob-encoding one room: keep the exported fields. -/
def persistRoom (r : Room) : PersistedRoom :=
  { MachineId := r.MachineId
    Id := r.Id
    Name := r.Name
    HostId := r.HostId
    Users := r.Users
    Topic := r.Topic
    Options := r.Options
    Estimates := r.Estimates
    Revealed := r.Revealed
    UpdatedAt := r.UpdatedAt }

/-- Gob-decoding one room: unexported fields take their zero value, so the
subscriber set is empty; `readFromDataFile` then overwrites `MachineId`
with the current machine id (server.go lines 382-384). -/
def restoreRoom (machineId : String) (p : PersistedRoom) : Room :=
  { MachineId := machineId
    Id := p.Id
    Name := p.Name
    HostId := p.HostId
    Users := p.Users
    Topic := p.Topic
    Options := p.Options
    Estimates := p.Estimates
    Revealed := p.Revealed
    UpdatedAt := p.UpdatedAt
    subs := [] }

/-- `writeToDataFile` (server.go lines 389-405): gob-encode the whole
registry. -/
def writeToDataFile (store : List (String × Room)) : List (String × PersistedRoom) :=
  store.map (fun kr => (kr.1, persistRoom kr.2))

/-- `readFromDataFile` (server.go lines 369-387): decode the registry and
stamp every room with the current machine id. -/
def readFromDataFile (machineId : String) (data : List (String × PersistedRoom)) :
    List (String × Room) :=
  data.map (fun kp => (kp.1, restoreRoom machineId kp.2))

/-- One iteration of the `cleanupOldRooms` loop (server.go lines 409-417):
a room older than the cutoff is deleted from the registry by its id. -/
def cleanupStep (cutoff : Nat) (acc : List (String × Room)) (r : Room) :
    List (String × Room) :=
  if r.UpdatedAt < cutoff then acc.filter (fun kr => decide (kr.1 ≠ r.Id)) else acc

/-- `cleanupOldRooms` (server.go lines 407-418): visit every room and
delete the stale ones.  `now - persistTime` is `tenDaysAgo`. -/
def cleanupOldRooms (now : Nat) (store : List (String × Room)) :
    List (String × Room) :=
  (store.map (fun kr => kr.2)).foldl (cleanupStep (now - persistTime)) store

/-- One mutation request against a room: the request, the UUID that would
be generated for a joining user, and the wall-clock time of the mutation. -/
structure Mutation where
  req : Request
  freshId : String
  now : Nat
deriving DecidableEq

/-- The rooms observed after each mutation of a sequence, stopping at a
panicking request. -/
def runMutations (room : Room) : List Mutation → List Room
  | [] => []
  | m :: rest =>
    match applyRoomUpdate room m.req m.freshId m.now with
    | none => []
    | some r' => r' :: runMutations r' rest

/-! ### Lemmas about the map and user-list operations -/

theorem mapLookup_mapErase_self (m : List (String × String)) (k : String) :
    mapLookup (mapErase m k) k = none := by
  induction m with
  | nil => rfl
  | cons p rest ih =>
    by_cases h : p.1 = k
    · simp [mapErase, h, ih]
    · simp [mapErase, mapLookup, h, ih]

theorem mapLookup_mapInsert_self (m : List (String × String)) (k v : String) :
    mapLookup (mapInsert m k v) k = some v := by
  induction m with
  | nil => simp [mapInsert, mapLookup]
  | cons p rest ih =>
    by_cases h : p.1 = k
    · simp [mapInsert, h, mapLookup]
    · simp [mapInsert, mapLookup, h, ih]

theorem getUserIn_id (l : List User) (cid : String) (u : User)
    (h : getUserIn l cid = some u) : u.Id = cid := by
  induction l with
  | nil => exact Option.noConfusion h
  | cons w rest ih =>
    by_cases hw : w.Id = cid
    · rw [getUserIn, if_pos hw] at h
      injection h with h2
      subst h2
      exact hw
    · rw [getUserIn, if_neg hw] at h
      exact ih h

theorem getUserIn_setUserName (l : List User) (cid n : String) (u : User)
    (h : getUserIn l cid = some u) :
    getUserIn (setUserName l u.Id n) cid = some { u with Name := n } := by
  induction l with
  | nil => exact Option.noConfusion h
  | cons w rest ih =>
    by_cases hw : w.Id = cid
    · rw [getUserIn, if_pos hw] at h
      injection h with h2
      subst h2
      simp [setUserName, getUserIn, hw]
    · rw [getUserIn, if_neg hw] at h
      have hid : u.Id = cid := getUserIn_id rest cid u h
      have hwne : ¬ w.Id = u.Id := by rw [hid]; exact hw
      simp [setUserName, getUserIn, hwne, hw, ih h]

/-! ### Frame lemmas: which room fields each form block leaves unchanged -/

theorem applyUserNameForm_frame (room : Room) (req : Request) (fid : String) :
    (applyUserNameForm room req fid).Name = room.Name ∧
    (applyUserNameForm room req fid).Topic = room.Topic ∧
    (applyUserNameForm room req fid).Options = room.Options ∧
    (applyUserNameForm room req fid).Estimates = room.Estimates ∧
    (applyUserNameForm room req fid).Revealed = room.Revealed := by
  unfold applyUserNameForm
  split
  · exact ⟨rfl, rfl, rfl, rfl, rfl⟩
  · split
    · exact ⟨rfl, rfl, rfl, rfl, rfl⟩
    · dsimp only
      split
      · exact ⟨rfl, rfl, rfl, rfl, rfl⟩
      · exact ⟨rfl, rfl, rfl, rfl, rfl⟩

theorem applyUserNameForm_absent (room : Room) (req : Request) (fid : String)
    (h : req.userName = "") : applyUserNameForm room req fid = room := by
  unfold applyUserNameForm
  rw [if_pos h]

theorem applyUserNameForm_getUser (room : Room) (req : Request) (fid : String)
    (cid : String) (u : User) (hc : req.userCookie = some cid)
    (hu : Room.GetUser room cid = some u) :
    ∃ u', Room.GetUser (applyUserNameForm room req fid) cid = some u' ∧
      u'.Id = u.Id := by
  by_cases hn : req.userName = ""
  · exact ⟨u, by rw [applyUserNameForm_absent room req fid hn]; exact hu, rfl⟩
  · have hcu : cookieUser room req.userCookie = some u := by rw [hc]; exact hu
    refine ⟨{ u with Name := req.userName }, ?_, rfl⟩
    simp only [applyUserNameForm, if_neg hn, hcu]
    exact getUserIn_setUserName room.Users cid req.userName u hu

theorem applyNameForm_frame (room : Room) (req : Request) :
    (applyNameForm room req).Users = room.Users ∧
    (applyNameForm room req).HostId = room.HostId ∧
    (applyNameForm room req).Topic = room.Topic ∧
    (applyNameForm room req).Options = room.Options ∧
    (applyNameForm room req).Estimates = room.Estimates ∧
    (applyNameForm room req).Revealed = room.Revealed := by
  unfold applyNameForm
  split <;> exact ⟨rfl, rfl, rfl, rfl, rfl, rfl⟩

theorem applyNameForm_absent (room : Room) (req : Request) (h : req.name = "") :
    applyNameForm room req = room := by
  unfold applyNameForm
  rw [if_pos h]

theorem applyTopicForm_frame (room : Room) (req : Request) :
    (applyTopicForm room req).Users = room.Users ∧
    (applyTopicForm room req).HostId = room.HostId ∧
    (applyTopicForm room req).Name = room.Name ∧
    (applyTopicForm room req).Options = room.Options ∧
    (applyTopicForm room req).Estimates = room.Estimates ∧
    (applyTopicForm room req).Revealed = room.Revealed := by
  unfold applyTopicForm
  split <;> exact ⟨rfl, rfl, rfl, rfl, rfl, rfl⟩

theorem applyTopicForm_absent (room : Room) (req : Request) (h : req.topic = "") :
    applyTopicForm room req = room := by
  unfold applyTopicForm
  rw [if_pos h]

theorem applyEstimateForm_frame (room r4 : Room) (req : Request)
    (h : applyEstimateForm room req = some r4) :
    r4.Users = room.Users ∧ r4.HostId = room.HostId ∧ r4.Name = room.Name ∧
    r4.Topic = room.Topic ∧ r4.Options = room.Options ∧
    r4.Revealed = room.Revealed := by
  unfold applyEstimateForm at h
  split at h
  · cases h
    exact ⟨rfl, rfl, rfl, rfl, rfl, rfl⟩
  · split at h
    · exact Option.noConfusion h
    · split at h
      · split at h <;> (cases h; exact ⟨rfl, rfl, rfl, rfl, rfl, rfl⟩)
      · cases h
        exact ⟨rfl, rfl, rfl, rfl, rfl, rfl⟩

theorem applyShowForm_frame (room : Room) (req : Request) :
    (applyShowForm room req).Users = room.Users ∧
    (applyShowForm room req).HostId = room.HostId ∧
    (applyShowForm room req).Name = room.Name ∧
    (applyShowForm room req).Topic = room.Topic ∧
    (applyShowForm room req).Options = room.Options ∧
    (applyShowForm room req).Estimates = room.Estimates := by
  unfold applyShowForm
  split <;> exact ⟨rfl, rfl, rfl, rfl, rfl, rfl⟩

theorem applyDeleteForm_frame (room : Room) (req : Request) :
    (applyDeleteForm room req).Users = room.Users ∧
    (applyDeleteForm room req).HostId = room.HostId ∧
    (applyDeleteForm room req).Name = room.Name ∧
    (applyDeleteForm room req).Topic = room.Topic ∧
    (applyDeleteForm room req).Options = room.Options := by
  unfold applyDeleteForm
  split <;> exact ⟨rfl, rfl, rfl, rfl, rfl⟩

theorem applyDeleteForm_absent (room : Room) (req : Request)
    (h : req.deleteEstimates ≠ "true") : applyDeleteForm room req = room := by
  unfold applyDeleteForm
  rw [if_neg h]

theorem applyDeleteForm_clears (room : Room) (req : Request)
    (h : req.deleteEstimates = "true") :
    (applyDeleteForm room req).Estimates = [] ∧
    (applyDeleteForm room req).Revealed = false := by
  unfold applyDeleteForm
  rw [if_pos h]
  exact ⟨rfl, rfl⟩

theorem applyOptionsForm_frame (room : Room) (req : Request) :
    (applyOptionsForm room req).Users = room.Users ∧
    (applyOptionsForm room req).HostId = room.HostId ∧
    (applyOptionsForm room req).Name = room.Name ∧
    (applyOptionsForm room req).Topic = room.Topic ∧
    (applyOptionsForm room req).Estimates = room.Estimates ∧
    (applyOptionsForm room req).Revealed = room.Revealed := by
  unfold applyOptionsForm
  split <;> exact ⟨rfl, rfl, rfl, rfl, rfl, rfl⟩

theorem applyOptionsForm_absent (room : Room) (req : Request)
    (h : req.options = "") : applyOptionsForm room req = room := by
  unfold applyOptionsForm
  rw [if_pos h]

theorem applyKickForm_frame (room : Room) (req : Request) :
    (applyKickForm room req).HostId = room.HostId ∧
    (applyKickForm room req).Name = room.Name ∧
    (applyKickForm room req).Topic = room.Topic ∧
    (applyKickForm room req).Options = room.Options ∧
    (applyKickForm room req).Revealed = room.Revealed := by
  unfold applyKickForm
  split <;> exact ⟨rfl, rfl, rfl, rfl, rfl⟩

theorem applyKickForm_absent (room : Room) (req : Request)
    (h : req.kick ≠ "true") : applyKickForm room req = room := by
  unfold applyKickForm
  rw [if_neg h]

theorem applyKickForm_kicks (room : Room) (req : Request)
    (h : req.kick = "true") :
    (applyKickForm room req).Users = [] ∧
    (applyKickForm room req).Estimates = [] := by
  unfold applyKickForm
  rw [if_pos h]
  exact ⟨rfl, rfl⟩

theorem applyKickForm_estimates_empty (room : Room) (req : Request)
    (h : room.Estimates = []) : (applyKickForm room req).Estimates = [] := by
  unfold applyKickForm
  split
  · rfl
  · exact h

/-! ### Composite lemmas for the pre- and post-estimate form blocks -/

theorem applyPreForms_estimates (room : Room) (req : Request) (fid : String) :
    (applyPreForms room req fid).Estimates = room.Estimates := by
  unfold applyPreForms
  obtain ⟨-, -, -, -, hTE, -⟩ :=
    applyTopicForm_frame (applyNameForm (applyUserNameForm room req fid) req) req
  obtain ⟨-, -, -, -, hNE, -⟩ := applyNameForm_frame (applyUserNameForm room req fid) req
  obtain ⟨-, -, -, hUE, -⟩ := applyUserNameForm_frame room req fid
  rw [hTE, hNE, hUE]

theorem applyPreForms_users (room : Room) (req : Request) (fid : String) :
    (applyPreForms room req fid).Users = (applyUserNameForm room req fid).Users := by
  unfold applyPreForms
  obtain ⟨hTU, -, -, -, -, -⟩ :=
    applyTopicForm_frame (applyNameForm (applyUserNameForm room req fid) req) req
  obtain ⟨hNU, -, -, -, -, -⟩ := applyNameForm_frame (applyUserNameForm room req fid) req
  rw [hTU, hNU]

theorem applyPreForms_name (room : Room) (req : Request) (fid : String)
    (h : req.name = "") : (applyPreForms room req fid).Name = room.Name := by
  unfold applyPreForms
  obtain ⟨-, -, hTN, -, -, -⟩ :=
    applyTopicForm_frame (applyNameForm (applyUserNameForm room req fid) req) req
  rw [hTN, applyNameForm_absent _ _ h]
  exact (applyUserNameForm_frame room req fid).1

theorem applyPreForms_topic (room : Room) (req : Request) (fid : String)
    (h : req.topic = "") : (applyPreForms room req fid).Topic = room.Topic := by
  unfold applyPreForms
  rw [applyTopicForm_absent _ _ h]
  obtain ⟨-, -, hNT, -, -, -⟩ := applyNameForm_frame (applyUserNameForm room req fid) req
  rw [hNT]
  exact (applyUserNameForm_frame room req fid).2.1

theorem applyPreForms_options (room : Room) (req : Request) (fid : String) :
    (applyPreForms room req fid).Options = room.Options := by
  unfold applyPreForms
  obtain ⟨-, -, -, hTO, -, -⟩ :=
    applyTopicForm_frame (applyNameForm (applyUserNameForm room req fid) req) req
  obtain ⟨-, -, -, hNO, -, -⟩ := applyNameForm_frame (applyUserNameForm room req fid) req
  rw [hTO, hNO]
  exact (applyUserNameForm_frame room req fid).2.2.1

theorem applyPostForms_estimates (room : Room) (req : Request)
    (hdel : req.deleteEstimates ≠ "true") (hkick : req.kick ≠ "true") :
    (applyPostForms room req).Estimates = room.Estimates := by
  unfold applyPostForms
  rw [applyKickForm_absent _ _ hkick, applyDeleteForm_absent _ _ hdel]
  obtain ⟨-, -, -, -, hOE, -⟩ := applyOptionsForm_frame (applyShowForm room req) req
  rw [hOE]
  exact (applyShowForm_frame room req).2.2.2.2.2

theorem applyPostForms_clears (room : Room) (req : Request)
    (hdel : req.deleteEstimates = "true") :
    (applyPostForms room req).Estimates = [] ∧
    (applyPostForms room req).Revealed = false := by
  unfold applyPostForms
  obtain ⟨hDE, hDR⟩ := applyDeleteForm_clears (applyShowForm room req) req hdel
  obtain ⟨-, -, -, -, hOE, hOR⟩ :=
    applyOptionsForm_frame (applyDeleteForm (applyShowForm room req) req) req
  constructor
  · exact applyKickForm_estimates_empty _ req (by rw [hOE, hDE])
  · rw [(applyKickForm_frame _ req).2.2.2.2, hOR, hDR]

theorem applyPostForms_kick (room : Room) (req : Request)
    (hkick : req.kick = "true") :
    (applyPostForms room req).Users = [] ∧
    (applyPostForms room req).Estimates = [] := by
  unfold applyPostForms
  exact applyKickForm_kicks _ req hkick

theorem applyPostForms_keeps (room : Room) (req : Request)
    (hopts : req.options = "") :
    (applyPostForms room req).Name = room.Name ∧
    (applyPostForms room req).Topic = room.Topic ∧
    (applyPostForms room req).Options = room.Options := by
  unfold applyPostForms
  rw [applyOptionsForm_absent _ _ hopts]
  obtain ⟨-, hKN, hKT, hKO, -⟩ :=
    applyKickForm_frame (applyDeleteForm (applyShowForm room req) req) req
  obtain ⟨-, -, hDN, hDT, hDO⟩ := applyDeleteForm_frame (applyShowForm room req) req
  obtain ⟨-, -, hSN, hST, hSO, -⟩ := applyShowForm_frame room req
  exact ⟨by rw [hKN, hDN, hSN], by rw [hKT, hDT, hST], by rw [hKO, hDO, hSO]⟩

/-! ### The estimate toggle and the shape of a full mutation -/

theorem applyEstimateForm_toggle (room : Room) (req : Request) (cid : String)
    (u : User) (hc : req.userCookie = some cid)
    (hu : Room.GetUser room cid = some u) (hest : req.estimate ≠ "") :
    ∃ r4, applyEstimateForm room req = some r4 ∧
      mapLookup r4.Estimates u.Id =
        (if mapLookup room.Estimates u.Id = some req.estimate then none
         else some req.estimate) := by
  have hcu : cookieUser room req.userCookie = some u := by rw [hc]; exact hu
  simp only [applyEstimateForm, if_neg hest, hcu]
  cases hlk : mapLookup room.Estimates u.Id with
  | none =>
    refine ⟨_, rfl, ?_⟩
    rw [if_neg (by exact Option.noConfusion)]
    exact mapLookup_mapInsert_self room.Estimates u.Id req.estimate
  | some existing =>
    by_cases he : existing = req.estimate
    · simp only [if_pos he]
      refine ⟨_, rfl, ?_⟩
      rw [if_pos (by rw [he])]
      exact mapLookup_mapErase_self room.Estimates u.Id
    · simp only [if_neg he]
      refine ⟨_, rfl, ?_⟩
      rw [if_neg (by intro hx; exact he (Option.some.inj hx))]
      exact mapLookup_mapInsert_self room.Estimates u.Id req.estimate

theorem applyRoomUpdate_updatedAt (room : Room) (req : Request) (fid : String)
    (now : Nat) (r' : Room) (h : applyRoomUpdate room req fid now = some r') :
    r'.UpdatedAt = now := by
  unfold applyRoomUpdate at h
  cases happ : applyEstimateForm (applyPreForms room req fid) req with
  | none => rw [happ] at h; exact Option.noConfusion h
  | some r4 =>
    rw [happ] at h
    injection h with h1
    subst h1
    rfl

/-! ### Lemmas about the notification bus -/

theorem foldl_chanSend_count (l : List Nat) (p : Nat → Nat) (h : Nat) :
    l.foldl chanSend p h = p h + l.count h := by
  induction l generalizing p with
  | nil => simp
  | cons a l ih =>
    rw [List.foldl_cons, ih, List.count_cons]
    by_cases hah : h = a
    · subst hah
      simp [chanSend]
      omega
    · have hah2 : ¬a = h := fun h2 => hah h2.symm
      simp [chanSend, hah, hah2]

theorem publish_pending (s : BusState) (h : Nat) :
    (publish s).pending h = s.pending h + s.subs.count h :=
  foldl_chanSend_count s.subs s.pending h

/-! ### Lemmas about cleanup -/

theorem foldl_cleanupStep_mem (cutoff : Nat) (l : List Room) :
    ∀ (acc : List (String × Room)) (k : String) (r : Room),
      ((k, r) ∈ l.foldl (cleanupStep cutoff) acc ↔
        ((k, r) ∈ acc ∧ ∀ r' ∈ l, r'.UpdatedAt < cutoff → k ≠ r'.Id)) := by
  induction l with
  | nil =>
    intro acc k r
    simp
  | cons a l ih =>
    intro acc k r
    by_cases ha : a.UpdatedAt < cutoff
    · have hstep : cleanupStep cutoff acc a =
          acc.filter (fun kr => decide (kr.1 ≠ a.Id)) := by
        unfold cleanupStep
        rw [if_pos ha]
      rw [List.foldl_cons, hstep, ih]
      simp only [List.mem_filter, decide_eq_true_eq, List.mem_cons]
      constructor
      · rintro ⟨⟨hmem, hne⟩, hall⟩
        refine ⟨hmem, ?_⟩
        intro r' hr' hold
        rcases hr' with rfl | hr'
        · exact hne
        · exact hall r' hr' hold
      · rintro ⟨hmem, hall⟩
        exact ⟨⟨hmem, hall a (Or.inl rfl) ha⟩,
          fun r' hr' hold => hall r' (Or.inr hr') hold⟩
    · have hstep : cleanupStep cutoff acc a = acc := by
        unfold cleanupStep
        rw [if_neg ha]
      rw [List.foldl_cons, hstep, ih]
      constructor
      · rintro ⟨hmem, hall⟩
        refine ⟨hmem, ?_⟩
        intro r' hr' hold
        rcases List.mem_cons.mp hr' with rfl | hr'
        · exact absurd hold ha
        · exact hall r' hr' hold
      · rintro ⟨hmem, hall⟩
        exact ⟨hmem, fun r' hr' hold => hall r' (List.mem_cons_of_mem a hr') hold⟩

/-! ### Lemmas about mutation sequences -/

theorem runMutations_head (room : Room) (ms : List Mutation) (x : Room)
    (xs : List Room) (h : runMutations room ms = x :: xs) :
    ∃ m ms', ms = m :: ms' ∧ x.UpdatedAt = m.now := by
  cases ms with
  | nil => exact List.noConfusion h
  | cons m rest =>
    refine ⟨m, rest, rfl, ?_⟩
    cases happ : applyRoomUpdate room m.req m.freshId m.now with
    | none =>
      rw [runMutations, happ] at h
      exact List.noConfusion h
    | some r' =>
      rw [runMutations, happ] at h
      injection h with h1 h2
      subst h1
      exact applyRoomUpdate_updatedAt _ _ _ _ _ happ

/-! ### Concrete example data used by witnesses and counterexamples -/

/-- A room on instance `A` with one participant `u1` who has voted `5`. -/
def roomW : Room :=
  { MachineId := "A", Id := "r1", Name := "", HostId := "u1",
    Users := [{ Id := "u1", Name := "Alice" }], Topic := "",
    Options := defaultOptions, Estimates := [("u1", "5")], Revealed := false,
    UpdatedAt := 0, subs := [] }

/-- The registry holding `roomW`. -/
def storeW : List (String × Room) := [("r1", roomW)]

/-- A vote request from participant `u1` selecting `5`. -/
def reqVote : Request :=
  { pathMachine := "A", pathRoom := "r1", roomCookie := none,
    userCookie := some "u1", ifModifiedSince := none, userName := "",
    name := "", topic := "", estimate := "5", showEstimates := "",
    deleteEstimates := "", options := "", kick := "", hxRequest := false }

/-- A clear-estimates request. -/
def reqClear : Request := { reqVote with estimate := "", deleteEstimates := "true" }

/-- A kick-all-participants request. -/
def reqKick : Request := { reqVote with estimate := "", kick := "true" }

/-- A vote request carrying no user cookie. -/
def reqVoteNoCookie : Request := { reqVote with userCookie := none }

/-- A long-poll request addressed to instance `B`. -/
def reqPollB : Request :=
  { reqVote with pathMachine := "B", estimate := "" }

/-- The state of `roomW` after a clear-estimates mutation at time 9. -/
def roomCleared : Room := { roomW with Estimates := [], Revealed := false, UpdatedAt := 9 }

/-- The state of `roomW` after a kick mutation at time 9. -/
def roomKicked : Room := { roomW with Users := [], Estimates := [], UpdatedAt := 9 }

/-- A bus with two distinct subscribed waiters and no pending signals. -/
def busW : BusState := { nextHandle := 2, subs := [0, 1], pending := fun _ => 0 }

/-- A room whose last mutation was at the epoch. -/
def roomStale : Room := NewRoom "A" "stale" 0

/-- A room mutated well inside the retention window. -/
def roomFresh : Room := NewRoom "A" "fresh" (20 * persistTime)

/-- A registry with one stale and one fresh room. -/
def storeC6 : List (String × Room) := [("stale", roomStale), ("fresh", roomFresh)]

/-- Two topic-setting mutations at increasing clock times 5 and 7. -/
def topicMut (t : String) (n : Nat) : Mutation :=
  { req := { reqVote with userCookie := none, estimate := "", topic := t },
    freshId := "f", now := n }

/-- A two-mutation sequence with a non-decreasing clock. -/
def msW : List Mutation := [topicMut "a" 5, topicMut "b" 7]

/-! ### Claim C1 -/

/-- Claim C1: for every room and every participant, a mutation request
whose estimate field equals the participant's recorded estimate removes
the participant's entry from the estimates mapping, and one whose
estimate differs (or when no estimate is recorded) sets the entry to the
new value.  The request is a vote: it does not also carry the
clear-estimates or kick-all flags, which run later in the same handler
and would empty the mapping again. -/
theorem C1_estimate_toggle (room : Room) (req : Request) (fid : String)
    (now : Nat) (cid : String) (u : User)
    (hc : req.userCookie = some cid) (hu : Room.GetUser room cid = some u)
    (hest : req.estimate ≠ "") (hdel : req.deleteEstimates ≠ "true")
    (hkick : req.kick ≠ "true") :
    ∃ r', applyRoomUpdate room req fid now = some r' ∧
      mapLookup r'.Estimates u.Id =
        (if mapLookup room.Estimates u.Id = some req.estimate then none
         else some req.estimate) := by
  obtain ⟨u', hu', hid⟩ := applyUserNameForm_getUser room req fid cid u hc hu
  have hgu : Room.GetUser (applyPreForms room req fid) cid = some u' := by
    unfold Room.GetUser at hu' ⊢
    rw [applyPreForms_users room req fid]
    exact hu'
  obtain ⟨r4, hr4, hlook⟩ :=
    applyEstimateForm_toggle (applyPreForms room req fid) req cid u' hc hgu hest
  rw [hid, applyPreForms_estimates room req fid] at hlook
  refine ⟨{ applyPostForms r4 req with UpdatedAt := now }, ?_, ?_⟩
  · unfold applyRoomUpdate
    rw [hr4]
  · show mapLookup (applyPostForms r4 req).Estimates u.Id = _
    rw [applyPostForms_estimates r4 req hdel hkick]
    exact hlook

/-- Witness for C1: participant `u1` re-selects the recorded value `5`,
which clears the entry. -/
theorem C1_estimate_toggle_witness :
    reqVote.userCookie = some "u1" ∧
    Room.GetUser roomW "u1" = some { Id := "u1", Name := "Alice" } ∧
    reqVote.estimate ≠ "" ∧ reqVote.deleteEstimates ≠ "true" ∧
    reqVote.kick ≠ "true" ∧
    (∃ r', applyRoomUpdate roomW reqVote "f" 9 = some r' ∧
      mapLookup r'.Estimates ({ Id := "u1", Name := "Alice" } : User).Id =
        (if mapLookup roomW.Estimates ({ Id := "u1", Name := "Alice" } : User).Id =
            some reqVote.estimate then none
         else some reqVote.estimate)) :=
  ⟨rfl, by decide, by decide, by decide, by decide,
   C1_estimate_toggle roomW reqVote "f" 9 "u1" { Id := "u1", Name := "Alice" }
     rfl (by decide) (by decide) (by decide) (by decide)⟩

/-! ### Claim C2 -/

/-- Counterexample to claim C2: the supplied timestamp (one whole second)
is strictly older than the room's last-updated timestamp (one second plus
one nanosecond), yet the coordinator subscribes and waits, because the
comparison truncates the room timestamp to a whole second first. -/
theorem C2_counterexample :
    nsPerSecond < nsPerSecond + 1 ∧
    longPoll (nsPerSecond + 1) (some nsPerSecond) WaitEvent.timeout20s =
      LPOutcome.waitedThen WaitEvent.timeout20s ∧
    longPoll (nsPerSecond + 1) (some nsPerSecond) WaitEvent.timeout20s ≠
      LPOutcome.immediate (nsPerSecond + 1) := by
  decide

/-- Claim C2 (amended): a long-poll request whose conditional timestamp is
strictly older than the room's last-updated timestamp truncated to
one-second resolution returns the current state immediately and never
subscribes or waits, whatever event would have ended a wait. -/
theorem C2_immediate_when_stale (u t : Nat) (ev : WaitEvent)
    (h : t < truncSecond u) :
    longPoll u (some t) ev = LPOutcome.immediate u := by
  simp only [longPoll]
  rw [if_pos h]

/-- Witness for the amended C2 at a concrete stale timestamp. -/
theorem C2_immediate_when_stale_witness :
    0 < truncSecond (2 * nsPerSecond) ∧
    longPoll (2 * nsPerSecond) (some 0) WaitEvent.published =
      LPOutcome.immediate (2 * nsPerSecond) :=
  ⟨by decide, C2_immediate_when_stale (2 * nsPerSecond) 0 WaitEvent.published (by decide)⟩

/-! ### Claim C3 -/

/-- Claim C3: a publish delivers exactly one wake signal to every waiter
registered in the room's subscriber set at the time of the publish,
delivers nothing to a handle not in the set, and in particular a waiter
that unsubscribed before the publish never observes it. -/
theorem C3_publish_broadcast (s : BusState) (hnd : s.subs.Nodup) :
    (∀ h ∈ s.subs, (publish s).pending h = s.pending h + 1) ∧
    (∀ h, h ∉ s.subs → (publish s).pending h = s.pending h) ∧
    (∀ h, (publish (unsubscribe s h)).pending h = s.pending h) := by
  refine ⟨?_, ?_, ?_⟩
  · intro h hh
    rw [publish_pending, List.count_eq_one_of_mem hnd hh]
  · intro h hh
    rw [publish_pending, List.count_eq_zero_of_not_mem hh]
    omega
  · intro h
    have hnot : h ∉ (unsubscribe s h).subs := by
      simp [unsubscribe]
    rw [publish_pending, List.count_eq_zero_of_not_mem hnot]
    show s.pending h + 0 = s.pending h
    omega

/-- Witness for C3 on a bus with two registered waiters. -/
theorem C3_publish_broadcast_witness :
    busW.subs.Nodup ∧ (publish busW).pending 0 = busW.pending 0 + 1 :=
  ⟨by decide, (C3_publish_broadcast busW (by decide)).1 0 (by decide)⟩

/-! ### Claim C4 -/

/-- Counterexample to claim C4: a long-poll request addressed to instance
`B` while the current instance is `A` is served locally by
`getRoomUpdateHandler` (which reads no machine path value and performs no
instance check) instead of producing the replay signal. -/
theorem C4_counterexample :
    reqPollB.pathMachine ≠ "A" ∧
    getRoomUpdateHandler storeW reqPollB WaitEvent.timeout20s =
      RouteResult.updatePage ∧
    getRoomUpdateHandler storeW reqPollB WaitEvent.timeout20s ≠
      RouteResult.flyReplay reqPollB.pathMachine := by
  decide

/-- Claim C4 (amended): the instance check applies to the room-view and
mutation handlers: a request whose target instance identifier differs
from the current instance's identifier gets the replay signal naming the
owning instance together with the local not-found body.  The long-poll
handler performs no such check. -/
theorem C4_replay_view_mutate (mid : String) (rooms : List (String × Room))
    (req : Request) (fid : String) (now : Nat) (h : req.pathMachine ≠ mid) :
    getRoomHandler mid rooms req = RouteResult.flyReplay req.pathMachine ∧
    updateRoomHandler mid rooms req fid now = RouteResult.flyReplay req.pathMachine := by
  constructor
  · unfold getRoomHandler
    rw [if_pos h]
  · unfold updateRoomHandler
    rw [if_pos h]

/-- Witness for the amended C4: instance `A` replays a request addressed
to instance `B` on both checked handlers. -/
theorem C4_replay_view_mutate_witness :
    ("B" : String) ≠ "A" ∧
    getRoomHandler "A" storeW reqPollB = RouteResult.flyReplay "B" ∧
    updateRoomHandler "A" storeW reqPollB "f" 9 = RouteResult.flyReplay "B" :=
  ⟨by decide,
   (C4_replay_view_mutate "A" storeW reqPollB "f" 9 (by decide)).1,
   (C4_replay_view_mutate "A" storeW reqPollB "f" 9 (by decide)).2⟩

/-! ### Claim C5 -/

/-- The persistable fields named by the round-trip property: identifier,
name, host, participants, topic, options, estimates, revealed flag,
last-updated timestamp.  The subscriber set is excluded; the owning
machine id is overwritten on restore. -/
def persistableFields (r : Room) :
    String × String × String × List User × String × List String ×
      List (String × String) × Bool × Nat :=
  (r.Id, r.Name, r.HostId, r.Users, r.Topic, r.Options, r.Estimates,
   r.Revealed, r.UpdatedAt)

/-- Claim C5: serializing a room store and restoring it yields a store
whose rooms' persistable fields are field-for-field equal to the
original, subscriber sets excluded from the comparison. -/
theorem C5_snapshot_roundtrip (mid : String) (store : List (String × Room)) :
    (readFromDataFile mid (writeToDataFile store)).map
        (fun kr => (kr.1, persistableFields kr.2)) =
      store.map (fun kr => (kr.1, persistableFields kr.2)) := by
  unfold readFromDataFile writeToDataFile
  rw [List.map_map, List.map_map]
  rfl

/-! ### Claim C6 -/

/-- Claim C6: after one cleanup pass at time `now`, every room whose
last-updated timestamp is older than `now` minus the 10-day retention
window is absent from the store, and every room whose timestamp is within
the window is still present.  The hypotheses record the registry
invariant that every room is stored under its own id, with distinct ids. -/
theorem C6_cleanup_eviction (now : Nat) (store : List (String × Room))
    (hkeys : ∀ kr ∈ store, kr.1 = kr.2.Id)
    (hids : (store.map (fun kr => kr.2.Id)).Nodup)
    (k : String) (r : Room) (hmem : (k, r) ∈ store) :
    (r.UpdatedAt < now - persistTime →
      ∀ r2 : Room, (k, r2) ∉ cleanupOldRooms now store) ∧
    (now - persistTime ≤ r.UpdatedAt → (k, r) ∈ cleanupOldRooms now store) := by
  constructor
  · intro hold r2 hmem2
    unfold cleanupOldRooms at hmem2
    obtain ⟨-, hall⟩ :=
      (foldl_cleanupStep_mem (now - persistTime) _ store k r2).mp hmem2
    have hrmem : r ∈ store.map (fun kr => kr.2) := List.mem_map_of_mem _ hmem
    exact hall r hrmem hold (hkeys (k, r) hmem)
  · intro hfresh
    unfold cleanupOldRooms
    refine (foldl_cleanupStep_mem (now - persistTime) _ store k r).mpr ⟨hmem, ?_⟩
    intro r' hr' hold hk
    obtain ⟨kr', hkr'mem, hkr'⟩ := List.mem_map.mp hr'
    have h1 : k = r.Id := hkeys (k, r) hmem
    have heq : (k, r) = kr' := by
      apply List.inj_on_of_nodup_map hids hmem hkr'mem
      show r.Id = kr'.2.Id
      rw [← h1, hk, ← hkr']
    have hrr : r' = r := by
      rw [← hkr', ← heq]
    rw [hrr] at hold
    omega

/-- Witness for C6: a room last mutated at the epoch is evicted by a
cleanup pass run 20 retention windows later. -/
theorem C6_cleanup_eviction_witness :
    (∀ kr ∈ storeC6, kr.1 = kr.2.Id) ∧
    (storeC6.map (fun kr => kr.2.Id)).Nodup ∧
    ("stale", roomStale) ∈ storeC6 ∧
    roomStale.UpdatedAt < 20 * persistTime - persistTime ∧
    ("stale", roomStale) ∉ cleanupOldRooms (20 * persistTime) storeC6 :=
  ⟨by decide, by decide, by decide, by decide,
   (C6_cleanup_eviction (20 * persistTime) storeC6 (by decide) (by decide)
     "stale" roomStale (by decide)).1 (by decide) roomStale⟩

/-! ### Claim C7 -/

/-- Claim C7: a mutation request with the clear-estimates flag set results
in an empty estimates mapping and the revealed flag false, regardless of
the room's prior estimates and prior revealed value (and of any other
field the same request carries). -/
theorem C7_clear_estimates (room : Room) (req : Request) (fid : String)
    (now : Nat) (r' : Room) (h : applyRoomUpdate room req fid now = some r')
    (hdel : req.deleteEstimates = "true") :
    r'.Estimates = [] ∧ r'.Revealed = false := by
  unfold applyRoomUpdate at h
  cases happ : applyEstimateForm (applyPreForms room req fid) req with
  | none =>
    rw [happ] at h
    exact Option.noConfusion h
  | some r4 =>
    rw [happ] at h
    injection h with h1
    subst h1
    exact applyPostForms_clears r4 req hdel

/-- Witness for C7: clearing `roomW`, whose participant had voted and
which could have been revealed. -/
theorem C7_clear_estimates_witness :
    applyRoomUpdate roomW reqClear "f" 9 = some roomCleared ∧
    reqClear.deleteEstimates = "true" ∧
    roomCleared.Estimates = [] ∧ roomCleared.Revealed = false :=
  ⟨by decide, rfl,
   (C7_clear_estimates roomW reqClear "f" 9 roomCleared (by decide) rfl).1,
   (C7_clear_estimates roomW reqClear "f" 9 roomCleared (by decide) rfl).2⟩

/-! ### Claim C8 -/

/-- Claim C8: a mutation request with the remove-all-participants flag set
(and no room-name, topic or options fields) empties the participant list
and the estimates mapping while leaving the room's topic, options and
room name unchanged. -/
theorem C8_kick_frame (room : Room) (req : Request) (fid : String) (now : Nat)
    (r' : Room) (h : applyRoomUpdate room req fid now = some r')
    (hkick : req.kick = "true") (hname : req.name = "")
    (htopic : req.topic = "") (hopts : req.options = "") :
    r'.Users = [] ∧ r'.Estimates = [] ∧ r'.Name = room.Name ∧
    r'.Topic = room.Topic ∧ r'.Options = room.Options := by
  unfold applyRoomUpdate at h
  cases happ : applyEstimateForm (applyPreForms room req fid) req with
  | none =>
    rw [happ] at h
    exact Option.noConfusion h
  | some r4 =>
    rw [happ] at h
    injection h with h1
    subst h1
    obtain ⟨hU, hE⟩ := applyPostForms_kick r4 req hkick
    obtain ⟨hN, hT, hO⟩ := applyPostForms_keeps r4 req hopts
    obtain ⟨-, -, heN, heT, heO, -⟩ := applyEstimateForm_frame _ r4 req happ
    refine ⟨hU, hE, ?_, ?_, ?_⟩
    · show (applyPostForms r4 req).Name = room.Name
      rw [hN, heN, applyPreForms_name room req fid hname]
    · show (applyPostForms r4 req).Topic = room.Topic
      rw [hT, heT, applyPreForms_topic room req fid htopic]
    · show (applyPostForms r4 req).Options = room.Options
      rw [hO, heO, applyPreForms_options room req fid]

/-- Witness for C8: kicking everyone from `roomW`. -/
theorem C8_kick_frame_witness :
    applyRoomUpdate roomW reqKick "f" 9 = some roomKicked ∧
    reqKick.kick = "true" ∧ reqKick.name = "" ∧ reqKick.topic = "" ∧
    reqKick.options = "" ∧
    (roomKicked.Users = [] ∧ roomKicked.Estimates = [] ∧
     roomKicked.Name = roomW.Name ∧ roomKicked.Topic = roomW.Topic ∧
     roomKicked.Options = roomW.Options) :=
  ⟨by decide, rfl, rfl, rfl, rfl,
   C8_kick_frame roomW reqKick "f" 9 roomKicked (by decide) rfl rfl rfl rfl⟩

/-! ### Claim C9 -/

/-- Claim C9: for every sequence of mutations applied to a single room
under a non-decreasing wall clock, the room's last-updated timestamp
observed after each mutation is monotonically non-decreasing. -/
theorem C9_updatedAt_monotone (room : Room) (ms : List Mutation)
    (hclock : List.Chain' (fun a b => a ≤ b) (ms.map Mutation.now)) :
    List.Chain' (fun a b => a ≤ b) ((runMutations room ms).map Room.UpdatedAt) := by
  induction ms generalizing room with
  | nil => simp [runMutations]
  | cons m rest ih =>
    rw [List.map_cons] at hclock
    obtain ⟨hhead, htail⟩ := List.chain'_cons'.mp hclock
    cases happ : applyRoomUpdate room m.req m.freshId m.now with
    | none => simp [runMutations, happ]
    | some r' =>
      simp only [runMutations, happ, List.map_cons]
      refine List.chain'_cons'.mpr ⟨?_, ih r' htail⟩
      intro y hy
      have hup : r'.UpdatedAt = m.now := applyRoomUpdate_updatedAt _ _ _ _ _ happ
      rw [hup]
      cases hrun : runMutations r' rest with
      | nil =>
        rw [hrun] at hy
        simp at hy
      | cons x xs =>
        rw [hrun] at hy
        simp only [List.map_cons, List.head?_cons, Option.mem_def,
          Option.some.injEq] at hy
        subst hy
        obtain ⟨m2, ms', hrest, hxup⟩ := runMutations_head r' rest x xs hrun
        rw [hxup]
        apply hhead
        rw [hrest, List.map_cons, List.head?_cons]
        rfl

/-- Witness for C9: two topic mutations at clock times 5 then 7. -/
theorem C9_updatedAt_monotone_witness :
    List.Chain' (fun a b => a ≤ b) (msW.map Mutation.now) ∧
    List.Chain' (fun a b => a ≤ b) ((runMutations roomW msW).map Room.UpdatedAt) :=
  ⟨List.chain'_pair.mpr (by show (5:Nat) ≤ 7; omega),
   C9_updatedAt_monotone roomW msW (List.chain'_pair.mpr (by show (5:Nat) ≤ 7; omega))⟩

/-! ### Claim C10 -/

/-- Claim C10: the mutation handler is not total.  At this concrete
input, the room exists, the estimate field is non-empty, and the
requester carries no identity cookie, so the estimate block dereferences
a nil user and the handler panics instead of returning a response. -/
theorem C10_nil_user_panic :
    (getReqRoomUser storeW reqVoteNoCookie).1 = some roomW ∧
    reqVoteNoCookie.estimate ≠ "" ∧
    reqVoteNoCookie.userCookie = none ∧
    updateRoomHandler "A" storeW reqVoteNoCookie "fresh" 100 =
      RouteResult.nilDeref := by
  decide
